import Mathlib

/-!
Shallow embedding of `src/app.py` (sinbc2003/pdfimage): a Streamlit tool that
rasterizes PDF pages (PyMuPDF), extracts text per page via the OpenAI chat
completions endpoint and/or local Tesseract OCR, collects one row per page
into a pandas DataFrame, optionally mirrors the table to a Google sheet, and
offers a CSV download.  External effects (HTTP, OCR engine, page rendering)
are modelled as explicit oracles; the sheet client is modelled as a trace of
operations together with a replay semantics.
-/

namespace PdfImage

/-- Raw image bytes (a PNG byte string); each entry is one byte value. -/
abbrev ImageBytes := List Nat

/-- The base64 alphabet, used when the image is inlined into the request. -/
def base64Alphabet : List Char :=
  "ABCDEFGHIJKLMNOPQRSTUVWXYZabcdefghijklmnopqrstuvwxyz0123456789+/".data

/-- One 6-bit group to its base64 character. -/
def b64Char (n : Nat) : Char := base64Alphabet.getD n 'A'

/-- Standard base64 encoding of a byte list (models `base64.b64encode`). -/
def base64Encode : List Nat → List Char
  | [] => []
  | [a] => [b64Char (a / 4), b64Char (a % 4 * 16), '=', '=']
  | [a, b] => [b64Char (a / 4), b64Char (a % 4 * 16 + b / 16), b64Char (b % 16 * 4), '=']
  | a :: b :: c :: rest =>
      b64Char (a / 4) :: b64Char (a % 4 * 16 + b / 16) ::
        b64Char (b % 16 * 4 + c / 64) :: b64Char (c % 64) :: base64Encode rest

/-- The HTTP request assembled by `extract_text_with_openai` (app.py lines
96-133): headers (content type, bearer authorization) and the JSON payload
(model, system instruction, user text, inline base64 image with detail). -/
structure OpenaiRequest where
  url : String
  contentType : String
  authorization : String
  model : String
  systemContent : String
  userText : String
  imageUrl : String
  imageDetail : String
  deriving DecidableEq

/-- Request construction from `extract_text_with_openai` (app.py lines
93-126).  `page_num` is a parameter of the Python function but is not
interpolated into any header or payload field (the user text at line 114 is
an f-string without any placeholder). -/
def openaiRequest (image_bytes : ImageBytes) (page_num : Nat) (api_key : String) :
    OpenaiRequest :=
  ⟨"https://api.openai.com/v1/chat/completions",
   "application/json",
   "Bearer " ++ api_key,
   "o4-mini",
   "수식은 LaTeX형식으로 제공해줘. 이미지의 모든 텍스트 내용을 추출해서 원본 서식을 최대한 유지하며 보여줘.",
   "이 이미지에서 모든 텍스트를 추출해줘.",
   "data:image/png;base64," ++ String.mk (base64Encode image_bytes),
   "high"⟩

/-- Outcome of `requests.post` as observed by the code: either a response
with a status code, a raw body text and the parsed `choices[i].message.content`
list (`none` when the JSON lacks a `choices` key), or a raised exception
(network/transport error), whose message is carried. -/
inductive HttpOutcome where
  | response (status : Nat) (body : String) (choices : Option (List String))
  | exn (msg : String)

/-- Transcription of `extract_text_with_openai` (app.py lines 90-148).
Returns the extracted text together with the list of `st.error` diagnostics
emitted during the call. -/
def extract_text_with_openai (http : OpenaiRequest → HttpOutcome)
    (image_bytes : ImageBytes) (page_num : Nat) (api_key : String) :
    String × List String :=
  match http (openaiRequest image_bytes page_num api_key) with
  | .exn e =>
      ("OpenAI 텍스트 추출 중 오류 발생: " ++ e, ["OpenAI 텍스트 추출 오류: " ++ e])
  | .response status body choices =>
      if status = 200 then
        match choices with
        | some (c :: _) => (c, [])
        | _ => ("OpenAI로 텍스트를 추출하지 못했습니다.", [])
      else
        ("OpenAI API 오류가 발생했습니다.", ["API 오류 (" ++ toString status ++ "): " ++ body])

/-- Truthiness of Python's `text.strip()`: the text contains at least one
non-whitespace character. -/
def hasContent (s : String) : Bool := s.data.any (fun c => !c.isWhitespace)

/-- Transcription of `extract_text_with_tesseract` (app.py lines 151-170).
The decode / preprocess / recognize pipeline (cv2.imdecode, greyscale, median
blur, Otsu threshold, pytesseract) is an oracle from image bytes to either
the recognized text or the message of a raised exception; the final
`text if text.strip() else ...` is the `hasContent` test. -/
def extract_text_with_tesseract (ocr : ImageBytes → Except String String)
    (image_bytes : ImageBytes) : String :=
  match ocr image_bytes with
  | .ok text => if hasContent text then text else "Tesseract OCR로 텍스트를 추출하지 못했습니다."
  | .error e => "Tesseract OCR 중 오류 발생: " ++ e

/-- An opened PDF document: its page count and its renderer.  `render p s`
models `doc.load_page(p).get_pixmap(matrix=fitz.Matrix(s, s)).tobytes("png")`
at scale factor `s`; `.error` models an exception raised while rendering. -/
structure PdfDoc where
  page_count : Nat
  render : Nat → Rat → Except String ImageBytes

/-- Models index resolution of `fitz.Document.load_page`: a non-negative
index must be below the page count; a negative index has the page count
added to it until it is non-negative (Python-style indexing from the end,
as documented by PyMuPDF), which for a non-empty document is reduction
modulo the page count; `none` models a raised exception. -/
def resolvePageIndex (count : Nat) (n : Int) : Option Nat :=
  if 0 ≤ n then
    if n < (count : Int) then some n.toNat else none
  else
    if count = 0 then none else some (n % (count : Int)).toNat

/-- Transcription of `convert_pdf_page_to_image` (app.py lines 71-87).
`pdf_file = none` models a byte stream `fitz.open` fails to decode (the
exception is caught and `None` returned).  The explicit guard
`page_num >= doc.page_count` mirrors line 77; otherwise the page is loaded
and rendered at scale 300/72 (300 DPI, line 81), any exception yielding
`None`. -/
def convert_pdf_page_to_image (pdf_file : Option PdfDoc) (page_num : Int) :
    Option ImageBytes :=
  match pdf_file with
  | none => none
  | some doc =>
      if (doc.page_count : Int) ≤ page_num then none
      else
        match resolvePageIndex doc.page_count page_num with
        | none => none
        | some p =>
            match doc.render p (300 / 72 : Rat) with
            | .ok bytes => some bytes
            | .error _ => none

/-- A cell of the result table: a page number or an extracted text. -/
inductive Cell where
  | num (n : Nat)
  | str (s : String)
  deriving DecidableEq

/-- One result row, as the Python dict appended to `extracted_texts`:
association list from column name to cell, in insertion order. -/
abbrev Row := List (String × Cell)

/-- The sidebar radio choice `ocr_method` (app.py lines 33-36):
`openai` = "OpenAI (o4-mini)", `tesseract` = "Tesseract OCR",
`both` = "둘 다 사용". -/
inductive OcrMethod where
  | openai
  | tesseract
  | both
  deriving DecidableEq

/-- Column name "페이지" (page). -/
def pageCol : String := "페이지"

/-- Column name "OpenAI 추출 텍스트" (OpenAI extracted text). -/
def openaiCol : String := "OpenAI 추출 텍스트"

/-- Column name "Tesseract 추출 텍스트" (Tesseract extracted text). -/
def tesseractCol : String := "Tesseract 추출 텍스트"

/-- The external collaborators of a run: the HTTP endpoint and the local
OCR pipeline. -/
structure Env where
  http : OpenaiRequest → HttpOutcome
  ocr : ImageBytes → Except String String

/-- The row recorded for zero-based page `i` given the rasterization
outcome (app.py lines 197-227): on success the strategy selects which
extractors run and which fields the dict carries; on failure both text
fields are set to the fixed placeholder "페이지 변환 실패". -/
def rowForImage (env : Env) (method : OcrMethod) (api_key : String) (i : Nat) :
    Option ImageBytes → Row
  | some img =>
      match method with
      | .openai =>
          [(pageCol, .num (i + 1)),
           (openaiCol, .str (extract_text_with_openai env.http img i api_key).1)]
      | .tesseract =>
          [(pageCol, .num (i + 1)),
           (tesseractCol, .str (extract_text_with_tesseract env.ocr img))]
      | .both =>
          [(pageCol, .num (i + 1)),
           (openaiCol, .str (extract_text_with_openai env.http img i api_key).1),
           (tesseractCol, .str (extract_text_with_tesseract env.ocr img))]
  | none =>
      [(pageCol, .num (i + 1)),
       (openaiCol, .str "페이지 변환 실패"),
       (tesseractCol, .str "페이지 변환 실패")]

/-- One loop iteration of `process_pdf` (app.py lines 190-227): convert
page `i`, then record its row. -/
def rowForPage (env : Env) (method : OcrMethod) (pdf_file : Option PdfDoc)
    (api_key : String) (i : Nat) : Row :=
  rowForImage env method api_key i (convert_pdf_page_to_image pdf_file (i : Int))

/-- The list `extracted_texts` after the page loop of `process_pdf`:
one row appended per page index `0 .. count-1`, in order. -/
def pdfRows (env : Env) (method : OcrMethod) (pdf_file : Option PdfDoc)
    (api_key : String) (count : Nat) : List Row :=
  (List.range count).map (rowForPage env method pdf_file api_key)

/-- One operation issued to the Google sheet client (`sheet.clear()` and
`sheet.update(range, values)`); ranges are carried as the 1-based row and
column of their top-left corner, as constructed by the code's literals. -/
inductive SheetOp where
  | clear
  | updateRange (row col : Nat) (values : List (List Cell))
  | updateCell (row col : Nat) (value : Cell)
  deriving DecidableEq

/-- The header written for each strategy (app.py lines 243-252). -/
def strategyHeader : OcrMethod → List String
  | .openai => [pageCol, openaiCol]
  | .tesseract => [pageCol, tesseractCol]
  | .both => [pageCol, openaiCol, tesseractCol]

/-- Dict subscription `row[key]` on a result row (never fails on the keys
the code uses; the default is never reached there). -/
def getCell (r : Row) (k : String) : Cell := (List.lookup k r).getD (Cell.str "")

/-- One entry of `data_to_insert` (app.py lines 246, 250, 254). -/
def pdfDataRow (method : OcrMethod) (r : Row) : List Cell :=
  match method with
  | .openai => [getCell r pageCol, getCell r openaiCol]
  | .tesseract => [getCell r pageCol, getCell r tesseractCol]
  | .both => [getCell r pageCol, getCell r openaiCol, getCell r tesseractCol]

/-- The value the final `sheet.update("A1", ...)` writes (app.py lines
263-269): the first row's OpenAI text for the OpenAI-only and both
strategies, its Tesseract text for the Tesseract-only strategy. -/
def primaryText (method : OcrMethod) (r : Row) : Cell :=
  match method with
  | .openai => getCell r openaiCol
  | .tesseract => getCell r tesseractCol
  | .both => getCell r openaiCol

/-- The sheet-operation trace of `process_pdf` when a sheet is configured
(app.py lines 237-269): clear, header row at A1, data block at A2 when
`data_to_insert` is non-empty, then the A1 override when the table is
non-empty. -/
def pdfSheetOps (method : OcrMethod) (rows : List Row) : List SheetOp :=
  [SheetOp.clear,
   SheetOp.updateRange 1 1 [(strategyHeader method).map Cell.str]]
  ++ (if (rows.map (pdfDataRow method)).isEmpty then []
      else [SheetOp.updateRange 2 1 (rows.map (pdfDataRow method))])
  ++ (if rows.length > 0 then [SheetOp.updateCell 1 1 (primaryText method (rows.headD []))]
      else [])

/-- Transcription of `process_pdf` (app.py lines 173-278): `none` when
`fitz.open` raises (caught at line 276); otherwise the result rows and the
sheet-operation trace (empty when no sheet was configured). -/
def process_pdf (env : Env) (method : OcrMethod) (pdf_file : Option PdfDoc)
    (api_key : String) (sheet : Bool) : Option (List Row × List SheetOp) :=
  match pdf_file with
  | none => none
  | some doc =>
      some (pdfRows env method (some doc) api_key doc.page_count,
            if sheet then pdfSheetOps method (pdfRows env method (some doc) api_key doc.page_count)
            else [])

/-- A sheet's contents: 1-based row and column to the cell value, `none`
meaning an empty cell. -/
def SheetState := Nat → Nat → Option Cell

/-- The sheet after `clear()`. -/
def emptySheet : SheetState := fun _ _ => none

/-- Effect of `sheet.update(range, values)` writing a block whose top-left
corner is at 1-based position `(r, c)`. -/
def writeBlock (s : SheetState) (r c : Nat) (vals : List (List Cell)) : SheetState :=
  fun i j =>
    if r ≤ i ∧ c ≤ j then
      match (vals.get? (i - r)).bind (fun rowVals => rowVals.get? (j - c)) with
      | some v => some v
      | none => s i j
    else s i j

/-- Replay one sheet operation on a sheet state. -/
def applyOp (s : SheetState) : SheetOp → SheetState
  | .clear => fun _ _ => none
  | .updateRange r c vals => writeBlock s r c vals
  | .updateCell r c v => fun i j => if i = r ∧ j = c then some v else s i j

/-- Replay a whole operation trace. -/
def applyOps (ops : List SheetOp) (s : SheetState) : SheetState :=
  ops.foldl applyOp s

/-- The `results` dict of `process_image` (app.py lines 297-311): OpenAI
text when the strategy asks for it (page number argument 0, line 303), then
Tesseract text when asked for, in insertion order. -/
def imageResults (env : Env) (method : OcrMethod) (image_bytes : ImageBytes)
    (api_key : String) : List (String × String) :=
  (if method = .openai ∨ method = .both then
      [(openaiCol, (extract_text_with_openai env.http image_bytes 0 api_key).1)]
    else [])
  ++ (if method = .tesseract ∨ method = .both then
      [(tesseractCol, extract_text_with_tesseract env.ocr image_bytes)]
    else [])

/-- Dict subscription `results[key]` (never fails on the keys used). -/
def getText (results : List (String × String)) (k : String) : String :=
  (List.lookup k results).getD ""

/-- The sheet-operation trace of `process_image` when a sheet is configured
(app.py lines 318-338): clear, header cell(s), value cell(s), then the A1
override preferring the OpenAI text. -/
def imageSheetOps (method : OcrMethod) (results : List (String × String)) :
    List SheetOp :=
  [SheetOp.clear]
  ++ (match method with
      | .openai =>
          [SheetOp.updateCell 1 1 (.str openaiCol),
           SheetOp.updateCell 2 1 (.str (getText results openaiCol))]
      | .tesseract =>
          [SheetOp.updateCell 1 1 (.str tesseractCol),
           SheetOp.updateCell 2 1 (.str (getText results tesseractCol))]
      | .both =>
          [SheetOp.updateRange 1 1 [[.str openaiCol, .str tesseractCol]],
           SheetOp.updateRange 2 1
             [[.str (getText results openaiCol), .str (getText results tesseractCol)]]])
  ++ (if (List.lookup openaiCol results).isSome then
        [SheetOp.updateCell 1 1 (.str (getText results openaiCol))]
      else if (List.lookup tesseractCol results).isSome then
        [SheetOp.updateCell 1 1 (.str (getText results tesseractCol))]
      else [])

/-- Transcription of `process_image` (app.py lines 281-347): `pil_ok`
models whether `Image.open` succeeds on the uploaded bytes (an exception is
caught at line 345 and `None` returned); otherwise the results dict and the
sheet-operation trace. -/
def process_image (env : Env) (method : OcrMethod) (pil_ok : Bool)
    (image_bytes : ImageBytes) (api_key : String) (sheet : Bool) :
    Option (List (String × String) × List SheetOp) :=
  if pil_ok then
    some (imageResults env method image_bytes api_key,
          if sheet then imageSheetOps method (imageResults env method image_bytes api_key)
          else [])
  else none

/-- The column list of `pd.DataFrame(extracted_texts)`: union of the rows'
keys in order of first appearance. -/
def dfColumns (rows : List Row) : List String :=
  rows.foldl (fun acc r => acc ++ (r.map Prod.fst).filter (fun k => decide (k ∉ acc))) []

/-- How `df.to_csv` prints one cell: page numbers in decimal, texts as
written, a missing entry (NaN in the DataFrame) as the empty field. -/
def dfCellString (r : Row) (c : String) : String :=
  match List.lookup c r with
  | some (Cell.num n) => toString n
  | some (Cell.str s) => s
  | none => ""

/-- The rectangular string table `df.to_csv(index=False)` serializes:
header line of column names, then one line per row. -/
def dfCsvTable (rows : List Row) : List (List String) :=
  dfColumns rows :: rows.map (fun r => (dfColumns rows).map (dfCellString r))

/-- Whether a CSV field must be quoted (csv.QUOTE_MINIMAL, the default of
`df.to_csv`): it contains the delimiter, the quote character, or a line
break. -/
def csvSpecial (c : Char) : Bool := c = ',' || c = '\"' || c = '\n' || c = '\r'

/-- A field needs quoting when some character is special. -/
def needsQuote (f : List Char) : Bool := f.any csvSpecial

/-- Double every quote character (csv doublequote escaping). -/
def escapeQuotes : List Char → List Char
  | [] => []
  | c :: cs => if c = '\"' then '\"' :: '\"' :: escapeQuotes cs else c :: escapeQuotes cs

/-- Serialize one CSV field, quoting only when needed. -/
def encodeField (f : List Char) : List Char :=
  if needsQuote f then '\"' :: (escapeQuotes f ++ ['\"']) else f

/-- Serialize one CSV record: fields joined by commas. -/
def encodeRow : List (List Char) → List Char
  | [] => []
  | [f] => encodeField f
  | f :: g :: fs => encodeField f ++ ',' :: encodeRow (g :: fs)

/-- Serialize a table: each record terminated by a newline, as
`df.to_csv` does. -/
def encodeCsv : List (List (List Char)) → List Char
  | [] => []
  | r :: rs => encodeRow r ++ '\n' :: encodeCsv rs

/-- Parse the body of a quoted field, after its opening quote: a doubled
quote is a literal quote, a lone quote closes the field. -/
def parseQuoted : List Char → Option (List Char × List Char)
  | [] => none
  | c :: cs =>
      if c = '\"' then
        match cs with
        | [] => some ([], [])
        | c2 :: cs2 =>
            if c2 = '\"' then Option.map (fun p => ('\"' :: p.1, p.2)) (parseQuoted cs2)
            else some ([], c2 :: cs2)
      else Option.map (fun p => (c :: p.1, p.2)) (parseQuoted cs)

/-- Parse an unquoted field: everything up to a comma or newline. -/
def parseUnquoted : List Char → List Char × List Char
  | [] => ([], [])
  | c :: cs =>
      if c = ',' ∨ c = '\n' then ([], c :: cs)
      else ((parseUnquoted cs).1.cons c, (parseUnquoted cs).2)

/-- Parse one field, quoted or not. -/
def parseField : List Char → Option (List Char × List Char)
  | [] => some ([], [])
  | c :: cs =>
      if c = '\"' then parseQuoted cs
      else some (parseUnquoted (c :: cs))

/-- Parse one newline-terminated record (fuel bounds the field count). -/
def parseRec : Nat → List Char → Option (List (List Char) × List Char)
  | 0, _ => none
  | fuel + 1, cs =>
      match parseField cs with
      | none => none
      | some p =>
          match p.2 with
          | [] => none
          | c :: cs2 =>
              if c = ',' then Option.map (fun q => (p.1 :: q.1, q.2)) (parseRec fuel cs2)
              else if c = '\n' then some ([p.1], cs2)
              else none

/-- Parse a whole CSV text into its records. -/
def parseCsvAux : Nat → List Char → Option (List (List (List Char)))
  | 0, cs => if cs.isEmpty then some [] else none
  | fuel + 1, cs =>
      if cs.isEmpty then some []
      else
        match parseRec (fuel + 1) cs with
        | none => none
        | some p => Option.map (fun t => p.1 :: t) (parseCsvAux fuel p.2)

/-- Serialize a string table to the CSV text of `df.to_csv(index=False)`. -/
def encodeCsvString (t : List (List String)) : String :=
  String.mk (encodeCsv (t.map (List.map String.data)))

/-- Decode a CSV text back into a string table. -/
def parseCsvString (s : String) : Option (List (List String)) :=
  Option.map (List.map (List.map String.mk)) (parseCsvAux s.data.length s.data)

/-- The CSV text of the download button (app.py lines 395 and 440):
`df.to_csv(index=False)` on the result table. -/
def to_csv (rows : List Row) : String := encodeCsvString (dfCsvTable rows)

/-- A concrete environment whose endpoint answers "T" and whose local OCR
reads "t", for evaluating the theorems on closed inputs. -/
def okEnv : Env := ⟨fun _ => .response 200 "" (some ["T"]), fun _ => .ok "t"⟩

/-- A concrete two-page document whose page `p` renders to the byte list
`[p]`. -/
def okDoc : PdfDoc := ⟨2, fun p _ => .ok [p]⟩

/-- A concrete two-page document whose first page fails to render. -/
def failDoc : PdfDoc := ⟨2, fun p _ => if p = 0 then .error "x" else .ok [9]⟩

/-- A concrete two-page document rendering every page to `[9]` (agreeing
with `failDoc` on its non-failing page). -/
def okDoc9 : PdfDoc := ⟨2, fun _ _ => .ok [9]⟩

/-- A concrete endpoint always answering with HTTP status 500. -/
def errHttp : OpenaiRequest → HttpOutcome := fun _ => .response 500 "boom" none

/-- The concrete result table of running `process_pdf` on `okDoc` with
`okEnv` and the OpenAI-only strategy. -/
def okRows : List Row :=
  [[(pageCol, Cell.num 1), (openaiCol, Cell.str "T")],
   [(pageCol, Cell.num 2), (openaiCol, Cell.str "T")]]

/-- The concrete sheet-operation trace of that run. -/
def okOps : List SheetOp :=
  [SheetOp.clear,
   SheetOp.updateRange 1 1 [[Cell.str pageCol, Cell.str openaiCol]],
   SheetOp.updateRange 2 1 [[Cell.num 1, Cell.str "T"], [Cell.num 2, Cell.str "T"]],
   SheetOp.updateCell 1 1 (Cell.str "T")]

/-- The concrete results dict of running `process_image` on `okEnv` with
the Tesseract-only strategy. -/
def okImgResults : List (String × String) := [(tesseractCol, "t")]

/-- The concrete sheet-operation trace of that image run. -/
def okImgOps : List SheetOp :=
  [SheetOp.clear,
   SheetOp.updateCell 1 1 (Cell.str tesseractCol),
   SheetOp.updateCell 2 1 (Cell.str "t"),
   SheetOp.updateCell 1 1 (Cell.str "t")]

/-- The fixed row recorded when rasterization of zero-based page `i`
fails. -/
def failRow (i : Nat) : Row :=
  [(pageCol, Cell.num (i + 1)),
   (openaiCol, Cell.str "페이지 변환 실패"),
   (tesseractCol, Cell.str "페이지 변환 실패")]

/-- The page field of every recorded row is its 1-based page number,
whatever the rasterization outcome, the strategy and the oracles. -/
theorem lookup_pageCol (env : Env) (method : OcrMethod) (pdf : Option PdfDoc)
    (key : String) (i : Nat) :
    List.lookup pageCol (rowForPage env method pdf key i) = some (Cell.num (i + 1)) := by
  unfold rowForPage
  cases convert_pdf_page_to_image pdf (i : Int) with
  | none => simp [rowForImage, List.lookup]
  | some img => cases method <;> simp [rowForImage, List.lookup]

/-- C1: for every PDF document with N pages processed by `process_pdf`, the
produced result table has exactly N rows, one per page, whose page fields
are 1..N in strictly increasing order (rows are appended in page order,
whether or not rasterization or extraction of a page succeeds). -/
theorem C1_one_row_per_page (env : Env) (method : OcrMethod) (doc : PdfDoc)
    (api_key : String) (sheet : Bool) :
    ∃ rows ops, process_pdf env method (some doc) api_key sheet = some (rows, ops) ∧
      rows.length = doc.page_count ∧
      rows.map (List.lookup pageCol) =
        (List.range doc.page_count).map (fun i => some (Cell.num (i + 1))) := by
  refine ⟨pdfRows env method (some doc) api_key doc.page_count, _, rfl, ?_, ?_⟩
  · simp [pdfRows]
  · simp only [pdfRows, List.map_map]
    apply List.map_congr_left
    intro i _
    exact lookup_pageCol env method (some doc) api_key i

/-- C2: if rasterization fails on page k (`convert_pdf_page_to_image`
returns no image), the recorded row k has all of its text fields equal to
the fixed placeholder "페이지 변환 실패", and every other page's row is the
one that would have been recorded over any document of the same page count
that rasterizes identically on the other pages (in particular one on which
page k does not fail). -/
theorem C2_conversion_failure_isolated (env : Env) (method : OcrMethod)
    (d1 d2 : PdfDoc) (key : String) (k : Nat)
    (hcount : d1.page_count = d2.page_count)
    (hfail : convert_pdf_page_to_image (some d1) (k : Int) = none)
    (hagree : ∀ j ∈ List.range d1.page_count, j ≠ k →
      convert_pdf_page_to_image (some d1) (j : Int) =
        convert_pdf_page_to_image (some d2) (j : Int)) :
    (pdfRows env method (some d1) key d1.page_count).get? k =
      (if k < d1.page_count then some (failRow k) else none) ∧
    ∀ j, j ≠ k → (pdfRows env method (some d1) key d1.page_count).get? j =
      (pdfRows env method (some d2) key d2.page_count).get? j := by
  constructor
  · by_cases hk : k < d1.page_count
    · simp only [pdfRows, List.get?_map, List.get?_range hk, Option.map_some, if_pos hk]
      simp [rowForPage, hfail, rowForImage, failRow]
    · have h1 : (List.range d1.page_count)[k]? = none := by
        apply List.getElem?_eq_none
        simpa using Nat.le_of_not_lt hk
      simp [pdfRows, List.get?_map, h1, if_neg hk]
  · intro j hj
    by_cases hjlt : j < d1.page_count
    · have hgr := hagree j (List.mem_range.mpr hjlt) hj
      have hjlt2 : j < d2.page_count := hcount ▸ hjlt
      simp only [pdfRows, List.get?_map, List.get?_range hjlt, List.get?_range hjlt2,
        Option.map_some]
      simp [rowForPage, hgr]
    · have h1 : (List.range d1.page_count)[j]? = none := by
        apply List.getElem?_eq_none
        simpa using Nat.le_of_not_lt hjlt
      have h2 : (List.range d2.page_count)[j]? = none := by
        apply List.getElem?_eq_none
        simp only [List.length_range]
        omega
      simp [pdfRows, List.get?_map, h1, h2]

/-- C2 witness: `failDoc` fails on page 0 and agrees with `okDoc9` on page
1; row 0 is the placeholder row and row 1 matches the non-failing run. -/
theorem C2_conversion_failure_isolated_witness :
    failDoc.page_count = okDoc9.page_count ∧
    convert_pdf_page_to_image (some failDoc) ((0 : Nat) : Int) = none ∧
    (∀ j ∈ List.range failDoc.page_count, j ≠ 0 →
      convert_pdf_page_to_image (some failDoc) (j : Int) =
        convert_pdf_page_to_image (some okDoc9) (j : Int)) ∧
    (pdfRows okEnv .openai (some failDoc) "key" failDoc.page_count).get? 0 =
      (if 0 < failDoc.page_count then some (failRow 0) else none) ∧
    (pdfRows okEnv .openai (some failDoc) "key" failDoc.page_count).get? 1 =
      (pdfRows okEnv .openai (some okDoc9) "key" okDoc9.page_count).get? 1 := by
  have h1 : failDoc.page_count = okDoc9.page_count := rfl
  have h2 : convert_pdf_page_to_image (some failDoc) ((0 : Nat) : Int) = none := by decide
  have h3 : ∀ j ∈ List.range failDoc.page_count, j ≠ 0 →
      convert_pdf_page_to_image (some failDoc) (j : Int) =
        convert_pdf_page_to_image (some okDoc9) (j : Int) := by decide
  refine ⟨h1, h2, h3, ?_, ?_⟩
  · exact (C2_conversion_failure_isolated okEnv .openai failDoc okDoc9 "key" 0 h1 h2 h3).1
  · exact (C2_conversion_failure_isolated okEnv .openai failDoc okDoc9 "key" 0 h1 h2 h3).2
      1 (by decide)

/-- C9: the request constructed by `extract_text_with_openai` does not
depend on the page number argument: for any two page numbers and the same
image bytes and API key, the headers and JSON payload sent to the endpoint
are identical. -/
theorem C9_request_ignores_page (img : ImageBytes) (key : String) (p1 p2 : Nat) :
    openaiRequest img p1 key = openaiRequest img p2 key := rfl

/-- C3 counterexample: on a non-success HTTP status the placeholder is NOT
page-specific: with the same failing endpoint, image and key, pages 3 and 7
receive the identical fixed string "OpenAI API 오류가 발생했습니다."
(the f-string at app.py line 145 interpolates nothing). -/
theorem C3_placeholder_not_page_specific :
    (extract_text_with_openai errHttp [1] 3 "key").1 =
      (extract_text_with_openai errHttp [1] 7 "key").1 ∧
    (extract_text_with_openai errHttp [1] 3 "key").1 = "OpenAI API 오류가 발생했습니다." ∧
    (extract_text_with_openai errHttp [1] 7 "key").1 = "OpenAI API 오류가 발생했습니다." := by
  refine ⟨rfl, rfl, rfl⟩

/-- C3 amended: for every call to `extract_text_with_openai` in which the
HTTP response has a non-success status, the function returns the fixed
placeholder "OpenAI API 오류가 발생했습니다." (the same for every page
number), the status and body are surfaced as an `st.error` diagnostic, and
the enclosing `process_pdf` run proceeds to the remaining pages rather than
aborting: each run with this endpoint still produces one row per page. -/
theorem C3_nonsuccess_placeholder (http : OpenaiRequest → HttpOutcome)
    (img : ImageBytes) (page : Nat) (key : String)
    (status : Nat) (body : String) (choices : Option (List String))
    (hresp : http (openaiRequest img page key) = .response status body choices)
    (hstatus : status ≠ 200) :
    (extract_text_with_openai http img page key).1 = "OpenAI API 오류가 발생했습니다." ∧
    (extract_text_with_openai http img page key).2 =
      ["API 오류 (" ++ toString status ++ "): " ++ body] ∧
    ∀ (ocr : ImageBytes → Except String String) (method : OcrMethod)
      (doc : PdfDoc) (key2 : String) (sh : Bool),
      ∃ rows ops, process_pdf ⟨http, ocr⟩ method (some doc) key2 sh = some (rows, ops) ∧
        rows.length = doc.page_count := by
  refine ⟨?_, ?_, ?_⟩
  · simp [extract_text_with_openai, hresp, if_neg hstatus]
  · simp [extract_text_with_openai, hresp, if_neg hstatus]
  · intro ocr method doc key2 sh
    exact ⟨_, _, rfl, by simp [pdfRows]⟩

/-- C3 witness: the amended statement evaluated on the concrete failing
endpoint `errHttp`, page 3 and a one-page document. -/
theorem C3_nonsuccess_placeholder_witness :
    errHttp (openaiRequest [1] 3 "key") = .response 500 "boom" none ∧
    (500 : Nat) ≠ 200 ∧
    (extract_text_with_openai errHttp [1] 3 "key").1 = "OpenAI API 오류가 발생했습니다." ∧
    (extract_text_with_openai errHttp [1] 3 "key").2 = ["API 오류 (" ++ toString (500 : Nat) ++ "): " ++ "boom"] ∧
    ∃ rows ops, process_pdf ⟨errHttp, fun _ => .ok "t"⟩ .openai (some okDoc) "key" false =
      some (rows, ops) ∧ rows.length = okDoc.page_count := by
  have h := C3_nonsuccess_placeholder errHttp [1] 3 "key" 500 "boom" none rfl (by decide)
  exact ⟨rfl, by decide, h.1, h.2.1, h.2.2 (fun _ => .ok "t") .openai okDoc "key" false⟩

/-- C4 counterexample: the negative page index -1 is out of range for a
zero-based index, yet `convert_pdf_page_to_image` on a two-page document
returns the rendered bytes of the LAST page rather than a failure signal
(the guard at app.py line 77 only checks the upper bound, and
`fitz.Document.load_page` resolves negative indices from the end). -/
theorem C4_negative_index_not_failure :
    convert_pdf_page_to_image (some okDoc) (-1) = some [1] ∧
    convert_pdf_page_to_image (some okDoc) (-1) ≠ none := by
  refine ⟨by decide, by decide⟩

/-- C4 amended: `convert_pdf_page_to_image` returns a failure signal when
the document cannot be decoded or when the index is at least the page
count; for every in-range index on a decodable document it returns the
PNG bytes of that page rendered at scale 300/72; a NEGATIVE index on a
non-empty document is resolved Python-style from the end (the page count is
added until it is non-negative, i.e. reduction modulo the page count), and
the bytes of that resolved page are returned rather than a failure. -/
theorem C4_convert_contract (doc : PdfDoc) (n : Int) (b b2 : ImageBytes) :
    (convert_pdf_page_to_image none n = none) ∧
    ((doc.page_count : Int) ≤ n → convert_pdf_page_to_image (some doc) n = none) ∧
    (0 ≤ n → n < (doc.page_count : Int) →
      doc.render n.toNat (300 / 72 : Rat) = .ok b →
      convert_pdf_page_to_image (some doc) n = some b) ∧
    (n < 0 → 0 < doc.page_count →
      doc.render (n % (doc.page_count : Int)).toNat (300 / 72 : Rat) = .ok b2 →
      convert_pdf_page_to_image (some doc) n = some b2) := by
  refine ⟨rfl, ?_, ?_, ?_⟩
  · intro h
    simp [convert_pdf_page_to_image, if_pos h]
  · intro h0 hlt hrender
    have hnot : ¬ (doc.page_count : Int) ≤ n := not_le.mpr hlt
    simp [convert_pdf_page_to_image, if_neg hnot, resolvePageIndex, if_pos h0, if_pos hlt,
      hrender]
  · intro hneg hcount hrender
    have hnot : ¬ (doc.page_count : Int) ≤ n := by
      refine not_le.mpr (lt_of_lt_of_le hneg ?_)
      exact_mod_cast Nat.zero_le doc.page_count
    have hnot0 : ¬ (0 : Int) ≤ n := not_le.mpr hneg
    have hne : doc.page_count ≠ 0 := Nat.pos_iff_ne_zero.mp hcount
    simp [convert_pdf_page_to_image, if_neg hnot, resolvePageIndex, if_neg hnot0,
      if_neg hne, hrender]

/-- C4 witness: the amended contract evaluated on the concrete two-page
document `okDoc` at index 0. -/
theorem C4_convert_contract_witness :
    (0 : Int) ≤ 0 ∧ (0 : Int) < (okDoc.page_count : Int) ∧
    okDoc.render (0 : Int).toNat (300 / 72 : Rat) = .ok [0] ∧
    convert_pdf_page_to_image (some okDoc) 0 = some [0] := by
  refine ⟨le_refl 0, by decide, rfl, ?_⟩
  exact (C4_convert_contract okDoc 0 [0] [0]).2.2.1 (le_refl 0) (by decide) rfl

/-- C6: `extract_text_with_tesseract` returns the recognized text when it
contains a non-whitespace character, the fixed placeholder "Tesseract OCR로
텍스트를 추출하지 못했습니다." when it is empty or whitespace-only, and on
any decoding or recognition exception a placeholder string built from the
exception message rather than propagating the exception. -/
theorem C6_tesseract_contract (ocr : ImageBytes → Except String String)
    (img : ImageBytes) :
    (∀ t, ocr img = .ok t → hasContent t = true →
      extract_text_with_tesseract ocr img = t) ∧
    (∀ t, ocr img = .ok t → hasContent t = false →
      extract_text_with_tesseract ocr img = "Tesseract OCR로 텍스트를 추출하지 못했습니다.") ∧
    (∀ e, ocr img = .error e →
      extract_text_with_tesseract ocr img = "Tesseract OCR 중 오류 발생: " ++ e) := by
  refine ⟨?_, ?_, ?_⟩
  · intro t hok htrim
    simp [extract_text_with_tesseract, hok, htrim]
  · intro t hok htrim
    simp [extract_text_with_tesseract, hok, htrim]
  · intro e herr
    simp [extract_text_with_tesseract, herr]

/-- C6 witness: a whitespace-only recognition result yields the fixed
placeholder, a real result is passed through, an exception yields the
error placeholder. -/
theorem C6_tesseract_contract_witness :
    ((fun _ : ImageBytes => (Except.ok "  " : Except String String)) [1] = .ok "  ") ∧
    hasContent "  " = false ∧
    extract_text_with_tesseract (fun _ => .ok "  ") [1] =
      "Tesseract OCR로 텍스트를 추출하지 못했습니다." ∧
    extract_text_with_tesseract (fun _ => .ok "hi") [1] = "hi" ∧
    extract_text_with_tesseract (fun _ => .error "bad") [1] =
      "Tesseract OCR 중 오류 발생: " ++ "bad" := by
  refine ⟨rfl, by decide, ?_, ?_, ?_⟩
  · exact (C6_tesseract_contract (fun _ => .ok "  ") [1]).2.1 "  " rfl (by decide)
  · exact (C6_tesseract_contract (fun _ => .ok "hi") [1]).1 "hi" rfl (by decide)
  · exact (C6_tesseract_contract (fun _ => .error "bad") [1]).2.2 "bad" rfl

/-- C5: when a sheet is configured for a PDF run, the sink operations are,
in order: clear all prior content; write the header row of exactly the
active strategy's column names at A1; write one data row per table row
starting at A2; finally overwrite cell A1 with the first row's primary
extracted text — so after the run A1 holds that text, not the first header
label. -/
theorem C5_pdf_sheet_trace (env : Env) (method : OcrMethod) (doc : PdfDoc)
    (key : String) (rows : List Row) (ops : List SheetOp)
    (hpages : 0 < doc.page_count)
    (hrun : process_pdf env method (some doc) key true = some (rows, ops)) :
    ops = [SheetOp.clear,
           SheetOp.updateRange 1 1 [(strategyHeader method).map Cell.str],
           SheetOp.updateRange 2 1 (rows.map (pdfDataRow method)),
           SheetOp.updateCell 1 1 (primaryText method (rows.headD []))] ∧
    (rows.map (pdfDataRow method)).length = rows.length ∧
    applyOps ops emptySheet 1 1 = some (primaryText method (rows.headD [])) := by
  simp only [process_pdf, if_true, Option.some.injEq, Prod.mk.injEq] at hrun
  obtain ⟨hr, ho⟩ := hrun
  have hne : rows ≠ [] := by
    rw [← hr]
    simp only [pdfRows, ne_eq, List.map_eq_nil, List.range_eq_nil]
    omega
  have hlen : 0 < rows.length := List.length_pos.mpr hne
  have hdata : (rows.map (pdfDataRow method)).isEmpty = false := by
    cases rows with
    | nil => exact absurd rfl hne
    | cons r rs => rfl
  have hops : ops =
      [SheetOp.clear,
       SheetOp.updateRange 1 1 [(strategyHeader method).map Cell.str],
       SheetOp.updateRange 2 1 (rows.map (pdfDataRow method)),
       SheetOp.updateCell 1 1 (primaryText method (rows.headD []))] := by
    rw [← ho, hr, pdfSheetOps, hdata]
    simp [hlen]
  refine ⟨hops, by simp, ?_⟩
  rw [hops]
  simp [applyOps, applyOp]

/-- C5 witness: the trace of the concrete run of `process_pdf` on `okDoc`
with `okEnv`, OpenAI-only strategy and a configured sheet. -/
theorem C5_pdf_sheet_trace_witness :
    0 < okDoc.page_count ∧
    process_pdf okEnv .openai (some okDoc) "key" true = some (okRows, okOps) ∧
    (okOps = [SheetOp.clear,
              SheetOp.updateRange 1 1 [(strategyHeader .openai).map Cell.str],
              SheetOp.updateRange 2 1 (okRows.map (pdfDataRow .openai)),
              SheetOp.updateCell 1 1 (primaryText .openai (okRows.headD []))] ∧
     (okRows.map (pdfDataRow .openai)).length = okRows.length ∧
     applyOps okOps emptySheet 1 1 = some (primaryText .openai (okRows.headD []))) := by
  refine ⟨by decide, by decide, ?_⟩
  exact C5_pdf_sheet_trace okEnv .openai okDoc "key" okRows okOps (by decide) (by decide)

/-- C10: for a single-image run with a configured sheet and a single-method
strategy, the final sheet state has the extracted text in both A1 and A2
and no other non-empty cell (the header written to A1 is overwritten by the
unconditional first-cell override); under the both-methods strategy A1
always receives the OpenAI text. -/
theorem C10_image_sheet_final_state (env : Env) (img : ImageBytes) (key : String) :
    (∀ results ops, process_image env .openai true img key true = some (results, ops) →
      applyOps ops emptySheet 1 1 =
        some (.str (extract_text_with_openai env.http img 0 key).1) ∧
      applyOps ops emptySheet 2 1 =
        some (.str (extract_text_with_openai env.http img 0 key).1) ∧
      ∀ i j, ¬(i = 1 ∧ j = 1) → ¬(i = 2 ∧ j = 1) → applyOps ops emptySheet i j = none) ∧
    (∀ results ops, process_image env .tesseract true img key true = some (results, ops) →
      applyOps ops emptySheet 1 1 =
        some (.str (extract_text_with_tesseract env.ocr img)) ∧
      applyOps ops emptySheet 2 1 =
        some (.str (extract_text_with_tesseract env.ocr img)) ∧
      ∀ i j, ¬(i = 1 ∧ j = 1) → ¬(i = 2 ∧ j = 1) → applyOps ops emptySheet i j = none) ∧
    (∀ results ops, process_image env .both true img key true = some (results, ops) →
      applyOps ops emptySheet 1 1 =
        some (.str (extract_text_with_openai env.http img 0 key).1)) := by
  refine ⟨?_, ?_, ?_⟩
  · intro results ops h
    simp only [process_image, if_true, Option.some.injEq, Prod.mk.injEq] at h
    obtain ⟨-, ho⟩ := h
    rw [← ho]
    refine ⟨?_, ?_, ?_⟩
    · simp [imageSheetOps, imageResults, getText, List.lookup, applyOps, applyOp]
    · simp [imageSheetOps, imageResults, getText, List.lookup, applyOps, applyOp]
    · intro i j h1 h2
      simp [imageSheetOps, imageResults, getText, List.lookup, applyOps, applyOp, h1, h2,
        emptySheet]
  · intro results ops h
    simp only [process_image, if_true, Option.some.injEq, Prod.mk.injEq] at h
    obtain ⟨-, ho⟩ := h
    rw [← ho]
    have hbe : (openaiCol == tesseractCol) = false := by decide
    refine ⟨?_, ?_, ?_⟩
    · simp [imageSheetOps, imageResults, getText, List.lookup, hbe, applyOps, applyOp]
    · simp [imageSheetOps, imageResults, getText, List.lookup, hbe, applyOps, applyOp]
    · intro i j h1 h2
      simp [imageSheetOps, imageResults, getText, List.lookup, hbe, applyOps, applyOp, h1,
        h2, emptySheet]
  · intro results ops h
    simp only [process_image, if_true, Option.some.injEq, Prod.mk.injEq] at h
    obtain ⟨-, ho⟩ := h
    rw [← ho]
    simp [imageSheetOps, imageResults, getText, List.lookup, applyOps, applyOp]

/-- C10 witness: the concrete Tesseract-only image run on `okEnv`: the
sheet ends with "t" in A1 and A2 and nothing elsewhere (sampled at B1). -/
theorem C10_image_sheet_final_state_witness :
    process_image okEnv .tesseract true [1] "key" true = some (okImgResults, okImgOps) ∧
    applyOps okImgOps emptySheet 1 1 =
      some (.str (extract_text_with_tesseract okEnv.ocr [1])) ∧
    applyOps okImgOps emptySheet 2 1 =
      some (.str (extract_text_with_tesseract okEnv.ocr [1])) ∧
    applyOps okImgOps emptySheet 1 2 = none := by
  have h := (C10_image_sheet_final_state okEnv [1] "key").2.1 okImgResults okImgOps
    (by decide)
  exact ⟨by decide, h.1, h.2.1, h.2.2 1 2 (by decide) (by decide)⟩

/-- Parsing a quoted field body undoes quote escaping, for any remainder
that does not itself start with a quote. -/
theorem parseQuoted_escape (f rest : List Char) (hrest : rest.head? ≠ some '\"') :
    parseQuoted (escapeQuotes f ++ '\"' :: rest) = some (f, rest) := by
  induction f with
  | nil =>
    simp only [escapeQuotes, List.nil_append]
    cases rest with
    | nil => rfl
    | cons c cs =>
      have hc : c ≠ '\"' := fun h => hrest (by simp [h])
      simp [parseQuoted, if_neg hc]
  | cons c f ih =>
    by_cases hc : c = '\"'
    · subst hc
      simp only [escapeQuotes, if_pos rfl, List.cons_append]
      simp [parseQuoted, ih]
    · simp only [escapeQuotes, if_neg hc, List.cons_append]
      rw [parseQuoted.eq_def]
      simp [if_neg hc, ih]

/-- Parsing an unquoted field stops exactly at a comma or newline. -/
theorem parseUnquoted_append (f rest : List Char)
    (hf : ∀ c ∈ f, ¬(c = ',' ∨ c = '\n'))
    (hrest : rest = [] ∨ ∃ c cs, rest = c :: cs ∧ (c = ',' ∨ c = '\n')) :
    parseUnquoted (f ++ rest) = (f, rest) := by
  induction f with
  | nil =>
    rcases hrest with h | ⟨c, cs, hcs, hc⟩
    · subst h; rfl
    · subst hcs
      simp [parseUnquoted, if_pos hc]
  | cons c f ih =>
    have hc : ¬(c = ',' ∨ c = '\n') := hf c (by simp)
    have ih2 := ih (fun x hx => hf x (by simp [hx]))
    simp [parseUnquoted, if_neg hc, ih2]

/-- Every character of a field that does not need quoting is ordinary. -/
theorem not_special_of_not_needsQuote (f : List Char) (h : needsQuote f = false) :
    ∀ c ∈ f, c ≠ ',' ∧ c ≠ '\"' ∧ c ≠ '\n' ∧ c ≠ '\r' := by
  intro c hc
  have h2 := (List.any_eq_false.mp h) c hc
  simp only [csvSpecial, Bool.or_eq_true, decide_eq_true_eq, not_or] at h2
  tauto

/-- Parsing one encoded field recovers it, for any remainder that is empty
or starts with a separator. -/
theorem parseField_encode (f rest : List Char)
    (hrest : rest = [] ∨ ∃ c cs, rest = c :: cs ∧ (c = ',' ∨ c = '\n')) :
    parseField (encodeField f ++ rest) = some (f, rest) := by
  by_cases hq : needsQuote f
  · have henc : encodeField f = '\"' :: (escapeQuotes f ++ ['\"']) := if_pos hq
    have hrest2 : rest.head? ≠ some '\"' := by
      rcases hrest with h | ⟨c, cs, hcs, hc⟩
      · simp [h]
      · subst hcs
        rcases hc with rfl | rfl <;> simp
    rw [henc]
    have hshape : ('\"' :: (escapeQuotes f ++ ['\"'])) ++ rest =
        '\"' :: (escapeQuotes f ++ '\"' :: rest) := by simp
    rw [hshape]
    simp only [parseField, if_pos rfl]
    exact parseQuoted_escape f rest hrest2
  · have hq2 : needsQuote f = false := by simpa using hq
    have henc : encodeField f = f := if_neg hq
    rw [henc]
    have hord := not_special_of_not_needsQuote f hq2
    have hf : ∀ c ∈ f, ¬(c = ',' ∨ c = '\n') := by
      intro c hc
      rcases hord c hc with ⟨h1, _, h3, _⟩
      rintro (rfl | rfl) <;> simp_all
    cases f with
    | nil =>
      rcases hrest with h | ⟨c, cs, hcs, hc⟩
      · subst h; rfl
      · subst hcs
        have hc2 : c ≠ '\"' := by rcases hc with rfl | rfl <;> simp
        simp [parseField, if_neg hc2, parseUnquoted, if_pos hc]
    | cons c f' =>
      have hc2 : c ≠ '\"' := (hord c (by simp)).2.1
      simp only [List.cons_append, parseField, if_neg hc2]
      rw [← List.cons_append]
      rw [parseUnquoted_append (c :: f') rest hf hrest]

/-- Parsing one encoded record recovers it, given fuel at least its field
count. -/
theorem parseRec_encode (r : List (List Char)) (rest : List Char) :
    ∀ fuel, r.length ≤ fuel → r ≠ [] →
    parseRec fuel (encodeRow r ++ '\n' :: rest) = some (r, rest) := by
  induction r with
  | nil => intro fuel _ h; exact absurd rfl h
  | cons f fs ih =>
    intro fuel hfuel _
    cases fuel with
    | zero => simp at hfuel
    | succ fuel =>
      cases fs with
      | nil =>
        have hfld := parseField_encode f ('\n' :: rest)
          (Or.inr ⟨'\n', rest, rfl, Or.inr rfl⟩)
        simp only [encodeRow]
        simp [parseRec, hfld]
      | cons g gs =>
        have hfld := parseField_encode f (',' :: (encodeRow (g :: gs) ++ '\n' :: rest))
          (Or.inr ⟨',', encodeRow (g :: gs) ++ '\n' :: rest, rfl, Or.inl rfl⟩)
        have hrec := ih fuel (by simpa using Nat.lt_succ_iff.mp (Nat.lt_of_lt_of_le
          (by simp) hfuel)) (by simp)
        have hshape : encodeRow (f :: g :: gs) ++ '\n' :: rest =
            encodeField f ++ ',' :: (encodeRow (g :: gs) ++ '\n' :: rest) := by
          simp [encodeRow]
        rw [hshape]
        simp [parseRec, hfld, hrec]

/-- The encoded record is at least as long as its field count minus one
(one comma between consecutive fields). -/
theorem encodeRow_length_ge (r : List (List Char)) (h : r ≠ []) :
    r.length ≤ (encodeRow r).length + 1 := by
  induction r with
  | nil => exact absurd rfl h
  | cons f fs ih =>
    cases fs with
    | nil => simp [encodeRow]
    | cons g gs =>
      have h2 := ih (by simp)
      simp only [encodeRow, List.length_append, List.length_cons] at h2 ⊢
      omega

/-- Parsing a whole encoded table recovers it, given fuel at least the text
length, provided every record has at least one field. -/
theorem parseCsvAux_encode (t : List (List (List Char))) :
    ∀ fuel, (encodeCsv t).length ≤ fuel → (∀ r ∈ t, r ≠ []) →
    parseCsvAux fuel (encodeCsv t) = some t := by
  induction t with
  | nil =>
    intro fuel _ _
    cases fuel <;> rfl
  | cons r rs ih =>
    intro fuel hfuel hne
    have hrne : r ≠ [] := hne r (by simp)
    have hrlen := encodeRow_length_ge r hrne
    simp only [encodeCsv, List.length_append, List.length_cons] at hfuel
    cases fuel with
    | zero => omega
    | succ fuel =>
      have hinput : (encodeRow r ++ '\n' :: encodeCsv rs).isEmpty = false := by
        cases h : encodeRow r <;> simp [h, List.isEmpty]
      have hrec := parseRec_encode r (encodeCsv rs) (fuel + 1) (by omega) hrne
      have hih := ih fuel (by omega) (fun x hx => hne x (by simp [hx]))
      simp only [encodeCsv]
      simp [parseCsvAux, hinput, hrec, hih]

/-- Rebuilding a string from its character data is the identity. -/
theorem mk_data_eq (s : String) : String.mk s.data = s := by
  cases s
  rfl

/-- CSV round trip at the string level: decoding the encoded table yields
the table back, provided every record has at least one field. -/
theorem csvString_roundtrip (t : List (List String)) (h : ∀ r ∈ t, r ≠ []) :
    parseCsvString (encodeCsvString t) = some t := by
  have hne : ∀ r ∈ t.map (List.map String.data), r ≠ [] := by
    intro r hr
    rcases List.mem_map.mp hr with ⟨r0, hr0, hr0e⟩
    subst hr0e
    simp only [ne_eq, List.map_eq_nil]
    exact h r0 hr0
  have hparse := parseCsvAux_encode (t.map (List.map String.data)) _ le_rfl hne
  unfold parseCsvString encodeCsvString
  rw [show (String.mk (encodeCsv (t.map (List.map String.data)))).data
      = encodeCsv (t.map (List.map String.data)) from rfl]
  rw [hparse]
  have hpt : ((List.map String.mk ∘ List.map String.data) : List String → List String) =
      fun r => r := by
    funext r
    induction r with
    | nil => rfl
    | cons s ss ihs => simpa [Function.comp] using congrArg (List.cons s) ihs
  show some (List.map (List.map String.mk) (List.map (List.map String.data) t)) = some t
  rw [List.map_map, hpt, List.map_id']

/-- Accumulated column names survive the rest of the fold. -/
theorem dfFold_mem_acc (rows : List Row) :
    ∀ (acc : List String) (k : String), k ∈ acc →
    k ∈ rows.foldl
      (fun acc r => acc ++ (r.map Prod.fst).filter (fun key => decide (key ∉ acc))) acc := by
  induction rows with
  | nil => intro acc k h; simpa using h
  | cons r rs ih =>
      intro acc k h
      exact ih _ k (List.mem_append_left _ h)

/-- Every key of every row ends up among the folded column names. -/
theorem dfFold_mem (r : Row) (k : String) (hk : k ∈ r.map Prod.fst) :
    ∀ (rows : List Row) (acc : List String), r ∈ rows →
    k ∈ rows.foldl
      (fun acc rr => acc ++ (rr.map Prod.fst).filter (fun key => decide (key ∉ acc))) acc := by
  intro rows
  induction rows with
  | nil => intro acc hr; exact absurd hr (List.not_mem_nil r)
  | cons x xs ih =>
      intro acc hr
      simp only [List.foldl_cons]
      rcases List.mem_cons.mp hr with hx | hmem
      · subst hx
        apply dfFold_mem_acc
        by_cases hacc : k ∈ acc
        · exact List.mem_append_left _ hacc
        · exact List.mem_append_right _ (List.mem_filter.mpr ⟨hk, by simpa using hacc⟩)
      · exact ih _ hmem

/-- Every key appearing in some row is a column of the DataFrame. -/
theorem mem_dfColumns (rows : List Row) (r : Row) (k : String) (v : Cell)
    (hr : r ∈ rows) (hkv : (k, v) ∈ r) : k ∈ dfColumns rows := by
  have hk : k ∈ r.map Prod.fst := List.mem_map.mpr ⟨(k, v), hkv, rfl⟩
  exact dfFold_mem r k hk rows [] hr

/-- The DataFrame of a table with at least one non-empty row has at least
one column. -/
theorem dfColumns_ne_nil (rows : List Row) (r : Row) (hr : r ∈ rows) (hne : r ≠ []) :
    dfColumns rows ≠ [] := by
  cases r with
  | nil => exact absurd rfl hne
  | cons p ps =>
      exact List.ne_nil_of_mem (mem_dfColumns rows (p :: ps) p.1 p.2 hr (by simp))

/-- C7: decoding the UTF-8 delimited CSV export of a result table yields
the same row count, the same column names and the same cell values as the
in-memory table (the decoded table is exactly the header line of column
names followed by one line per row), and re-serializing the decoded table
reproduces the export byte for byte. -/
theorem C7_csv_export_roundtrip (rows : List Row) (r : Row)
    (hr : r ∈ rows) (hne : r ≠ []) :
    parseCsvString (to_csv rows) = some (dfCsvTable rows) ∧
    Option.map encodeCsvString (parseCsvString (to_csv rows)) = some (to_csv rows) := by
  have hcols : dfColumns rows ≠ [] := dfColumns_ne_nil rows r hr hne
  have hall : ∀ row ∈ dfCsvTable rows, row ≠ [] := by
    intro row hrow
    rcases List.mem_cons.mp hrow with hh | hmem
    · subst hh; exact hcols
    · rcases List.mem_map.mp hmem with ⟨r0, _, hr0e⟩
      subst hr0e
      simp only [ne_eq, List.map_eq_nil]
      exact hcols
  have h1 := csvString_roundtrip (dfCsvTable rows) hall
  refine ⟨h1, ?_⟩
  have h2 : to_csv rows = encodeCsvString (dfCsvTable rows) := rfl
  rw [h2, h1]
  rfl

/-- C7 witness: the round trip evaluated on the concrete table `okRows`. -/
theorem C7_csv_export_roundtrip_witness :
    [(pageCol, Cell.num 1), (openaiCol, Cell.str "T")] ∈ okRows ∧
    [(pageCol, Cell.num 1), (openaiCol, Cell.str "T")] ≠ ([] : Row) ∧
    parseCsvString (to_csv okRows) = some (dfCsvTable okRows) ∧
    Option.map encodeCsvString (parseCsvString (to_csv okRows)) = some (to_csv okRows) := by
  have h := C7_csv_export_roundtrip okRows
    [(pageCol, Cell.num 1), (openaiCol, Cell.str "T")] (by decide) (by decide)
  exact ⟨by decide, by decide, h.1, h.2⟩

/-- C8: under a single-method strategy, the row recorded for a page whose
rasterization fails carries BOTH text fields (each set to the placeholder),
so any such failure adds the non-selected method's column to the DataFrame
and hence to the CSV export's header line, while rows of successfully
rasterized pages carry only the page field and the selected method's
field. -/
theorem C8_failure_widens_schema (env : Env) (doc : PdfDoc) (key : String) (k : Nat)
    (hk : k < doc.page_count)
    (hfail : convert_pdf_page_to_image (some doc) (k : Int) = none) :
    ((pdfRows env .openai (some doc) key doc.page_count).get? k = some (failRow k) ∧
     tesseractCol ∈ dfColumns (pdfRows env .openai (some doc) key doc.page_count) ∧
     tesseractCol ∈ (dfCsvTable (pdfRows env .openai (some doc) key doc.page_count)).headD [] ∧
     ∀ j img, j < doc.page_count →
       convert_pdf_page_to_image (some doc) (j : Int) = some img →
       (pdfRows env .openai (some doc) key doc.page_count).get? j =
         some [(pageCol, Cell.num (j + 1)),
               (openaiCol, Cell.str (extract_text_with_openai env.http img j key).1)]) ∧
    ((pdfRows env .tesseract (some doc) key doc.page_count).get? k = some (failRow k) ∧
     openaiCol ∈ dfColumns (pdfRows env .tesseract (some doc) key doc.page_count) ∧
     openaiCol ∈ (dfCsvTable (pdfRows env .tesseract (some doc) key doc.page_count)).headD [] ∧
     ∀ j img, j < doc.page_count →
       convert_pdf_page_to_image (some doc) (j : Int) = some img →
       (pdfRows env .tesseract (some doc) key doc.page_count).get? j =
         some [(pageCol, Cell.num (j + 1)),
               (tesseractCol, Cell.str (extract_text_with_tesseract env.ocr img))]) := by
  have hrowk : ∀ method, (pdfRows env method (some doc) key doc.page_count).get? k =
      some (failRow k) := by
    intro method
    simp only [pdfRows, List.get?_map, List.get?_range hk, Option.map_some]
    simp [rowForPage, hfail, rowForImage, failRow]
  have hmemk : ∀ method, failRow k ∈ pdfRows env method (some doc) key doc.page_count := by
    intro method
    have := hrowk method
    exact List.get?_mem this
  have hsucc : ∀ method j (img : ImageBytes), j < doc.page_count →
      convert_pdf_page_to_image (some doc) (j : Int) = some img →
      (pdfRows env method (some doc) key doc.page_count).get? j =
        some (rowForImage env method key j (some img)) := by
    intro method j img hj hconv
    simp only [pdfRows, List.get?_map, List.get?_range hj, Option.map_some]
    simp [rowForPage, hconv]
  refine ⟨⟨hrowk .openai, ?_, ?_, ?_⟩, ⟨hrowk .tesseract, ?_, ?_, ?_⟩⟩
  · exact mem_dfColumns _ (failRow k) tesseractCol (Cell.str "페이지 변환 실패")
      (hmemk .openai) (by simp [failRow])
  · exact mem_dfColumns _ (failRow k) tesseractCol (Cell.str "페이지 변환 실패")
      (hmemk .openai) (by simp [failRow])
  · intro j img hj hconv
    rw [hsucc .openai j img hj hconv]
    rfl
  · exact mem_dfColumns _ (failRow k) openaiCol (Cell.str "페이지 변환 실패")
      (hmemk .tesseract) (by simp [failRow])
  · exact mem_dfColumns _ (failRow k) openaiCol (Cell.str "페이지 변환 실패")
      (hmemk .tesseract) (by simp [failRow])
  · intro j img hj hconv
    rw [hsucc .tesseract j img hj hconv]
    rfl

/-- C8 witness: the concrete run on `failDoc` (page 0 fails, page 1
renders to `[9]`) with the OpenAI-only strategy. -/
theorem C8_failure_widens_schema_witness :
    (0 : Nat) < failDoc.page_count ∧
    convert_pdf_page_to_image (some failDoc) ((0 : Nat) : Int) = none ∧
    (pdfRows okEnv .openai (some failDoc) "key" failDoc.page_count).get? 0 =
      some (failRow 0) ∧
    tesseractCol ∈ dfColumns (pdfRows okEnv .openai (some failDoc) "key" failDoc.page_count) ∧
    (pdfRows okEnv .openai (some failDoc) "key" failDoc.page_count).get? 1 =
      some [(pageCol, Cell.num 2),
            (openaiCol, Cell.str (extract_text_with_openai okEnv.http [9] 1 "key").1)] := by
  have h := C8_failure_widens_schema okEnv failDoc "key" 0 (by decide) (by decide)
  exact ⟨by decide, by decide, h.1.1, h.1.2.1, h.1.2.2.2 1 [9] (by decide) (by decide)⟩

end PdfImage
